import Mathlib

/-!
Verification of the Fraktal numeric core (Cython engines) against its
natural-language specification.

The engines operate on IEEE doubles; here the arithmetic is embedded exactly:
rationals (`ℚ`) model the double computations that stay inside field
operations and comparisons (orbit iteration, palettes, tile mapping), and
reals (`ℝ`) model the smoothing stage which uses `log`/`sqrt`.  The C cast
`<uint8>(double)` is modelled as truncation toward zero reduced modulo 256
(the typical x86 behaviour; the conversion is undefined behaviour in C for
out-of-range values).  `np.empty` with a negative size raises, which is
modelled by an `Option` result.
-/

/-- Complex numbers with rational components, modelling the
`double complex` values of the Cython engines exactly on rational inputs. -/
structure CQ where
  re : ℚ
  im : ℚ
deriving DecidableEq, Repr

instance : Add CQ := ⟨fun a b => ⟨a.re + b.re, a.im + b.im⟩⟩

instance : Mul CQ := ⟨fun a b => ⟨a.re * b.re - a.im * b.im, a.re * b.im + a.im * b.re⟩⟩

/-- Squared magnitude `z.real*z.real + z.imag*z.imag`, as computed in
`orbit_cy.pyx` line 32. -/
def CQ.absSq (z : CQ) : ℚ := z.re * z.re + z.im * z.im

/-- Natural power of a complex value by repeated multiplication. -/
def CQ.npow (z : CQ) : ℕ → CQ
  | 0 => ⟨1, 0⟩
  | n + 1 => CQ.npow z n * z

/-- Complex reciprocal. -/
def CQ.recip (z : CQ) : CQ :=
  let d := z.re * z.re + z.im * z.im
  ⟨z.re / d, -z.im / d⟩

/-- Integer power of a complex value (model of the C `z**p` for `int p`). -/
def CQ.zpowI (z : CQ) (p : ℤ) : CQ :=
  if 0 ≤ p then CQ.npow z p.toNat else CQ.recip (CQ.npow z (-p).toNat)

/-- Seed step from `seed_cy.pyx` (`f_cython`) and inlined in
`orbit_cy.pyx` lines 27-30: `z*z + c` when `p == 2`, else `z**p + c`. -/
def f_cython (z c : CQ) (p : ℤ) : CQ :=
  if p = 2 then z * z + c else CQ.zpowI z p + c

/-- The loop of `truncated_orbit_cython` (orbit_cy.pyx lines 24-34).
Given the current value `z` and the remaining number of loop iterations
(`fuel`), returns the list of values actually written into the numpy
buffer together with `some k` when the bailout test fired at relative
loop index `k` (and `none` when the loop ran out).  Each iteration writes
the current `z`, computes the next iterate, tests `|z|² > bailout²` on the
new iterate and stops immediately when it fires; the escaping iterate is
therefore never written. -/
def orbitAux (c : CQ) (b2 : ℚ) (p : ℤ) : CQ → ℕ → List CQ × Option ℕ
  | _, 0 => ([], none)
  | z, fuel + 1 =>
    let z1 := f_cython z c p
    if b2 < z1.absSq then ([z], some 0)
    else
      let r := orbitAux c b2 p z1 fuel
      (z :: r.1, r.2.map (· + 1))

/-- Result of `truncated_orbit_cython`: the length of the allocated numpy
array (`np.empty(max_iterations + 1)`), the prefix of entries the loop
actually wrote (the remaining entries stay uninitialized), and the
returned escape time. -/
structure OrbitResult where
  allocLen : ℕ
  written : List CQ
  escape_time : ℤ
deriving DecidableEq, Repr

/-- Embedding of `truncated_orbit_cython` (orbit_cy.pyx lines 13-35).
`none` models the `ValueError` that `np.empty` raises for a negative
size, i.e. when `max_iterations ≤ -2`.  Otherwise the loop runs
`max_iterations + 1` times; on bailout at loop index `n` the function
returns the (untruncated) array together with `n`, and when the loop
completes it returns `max_iterations`. -/
def truncated_orbit_cython (z c : CQ) (max_iterations : ℤ) (bailout : ℚ) (p : ℤ) :
    Option OrbitResult :=
  if max_iterations + 1 < 0 then none
  else
    let fuel := (max_iterations + 1).toNat
    let r := orbitAux c (bailout * bailout) p z fuel
    some ⟨fuel, r.1,
      match r.2 with
      | some k => (k : ℤ)
      | none => max_iterations⟩

/-- The first `n` iterates `z, f z, f (f z), …` of a step function. -/
def iterList (f : CQ → CQ) : CQ → ℕ → List CQ
  | _, 0 => []
  | z, n + 1 => z :: iterList f (f z) n

/-- The `n`-th iterate of a step function. -/
def iterN (f : CQ → CQ) : CQ → ℕ → CQ
  | z, 0 => z
  | z, n + 1 => iterN f (f z) n

/-- Truncation toward zero, the C conversion of a `double` to an integer
(and Python `int()` on a float). -/
def truncTZ {α : Type} [LinearOrderedRing α] [FloorRing α] (x : α) : ℤ :=
  if 0 ≤ x then ⌊x⌋ else -⌊-x⌋

/-- Model of the C cast `<uint8>(x)` of a `double`: truncation toward zero
reduced modulo 256 (typical x86 behaviour; undefined behaviour in C when
the truncated value does not fit in the target type). -/
def castU8 {α : Type} [LinearOrderedRing α] [FloorRing α] (x : α) : ℤ :=
  truncTZ x % 256

/-- Embedding of `simple_palette_cy` (mandelbrot_cy.pyx lines 69-76).
The source casts `color_index * 255.0` to `uint8` first and only then
compares the `uint8` against 255, so the saturation branch can never
fire. -/
def simple_palette_cy {α : Type} [LinearOrderedField α] [FloorRing α]
    (color_index : α) : ℤ × ℤ × ℤ :=
  let intensity := castU8 (color_index * 255)
  let clamped := if intensity > 255 then 255 else intensity
  (clamped, clamped, clamped)

/-- Embedding of `hot_palette_cy` (mandelbrot_cy.pyx lines 78-102). -/
def hot_palette_cy {α : Type} [LinearOrderedField α] [FloorRing α]
    (color_index : α) : ℤ × ℤ × ℤ :=
  let raw := color_index * (5 / 2)
  let intensity := if raw < 0 then 0 else if raw > 1 then 1 else raw
  if intensity < 1 / 3 then (castU8 (intensity * 3 * 255), 0, 0)
  else if intensity < 2 / 3 then (255, castU8 ((intensity - 1 / 3) * 3 * 255), 0)
  else (255, 255, castU8 ((intensity - 2 / 3) * 3 * 255))

/-- Embedding of `cool_palette_cy` (mandelbrot_cy.pyx lines 104-128). -/
def cool_palette_cy {α : Type} [LinearOrderedField α] [FloorRing α]
    (color_index : α) : ℤ × ℤ × ℤ :=
  let raw := color_index * (5 / 2)
  let intensity := if raw < 0 then 0 else if raw > 1 then 1 else raw
  if intensity < 1 / 3 then (0, castU8 (intensity * 3 * 255), 255)
  else if intensity < 2 / 3 then (0, 255, castU8 ((1 - (intensity - 1 / 3) * 3) * 255))
  else (castU8 ((intensity - 2 / 3) * 3 * 255), 255, 0)

/-- Embedding of `simple_index_cy` (mandelbrot_cy.pyx lines 130-132). -/
noncomputable def simple_index_cy (u m : ℝ) : ℝ := u / m

/-- Embedding of `smooth_iteration_count_cy` (mandelbrot_cy.pyx lines
134-152), with the complex argument given by its two components. -/
noncomputable def smooth_iteration_count_cy (zre zim : ℝ) (escape_time max_iter : ℤ)
    (bailout : ℝ) (p : ℤ) : ℝ :=
  if escape_time ≥ max_iter then (max_iter : ℝ)
  else
    let abs_z := Real.sqrt (zre * zre + zim * zim)
    if abs_z ≤ 0 then (escape_time : ℝ)
    else
      let log_zn := Real.log abs_z
      let nu := Real.log (log_zn / Real.log bailout) / Real.log (p : ℝ)
      (escape_time : ℝ) + 1 - nu

/-- The smooth-coloring block inlined in `compute_pixel`
(mandelbrot_cy.pyx lines 192-202). -/
noncomputable def pixelSmoothing (zr zi : ℝ) (escape_time max_iter : ℤ)
    (bailout : ℝ) (p : ℤ) : ℝ :=
  if escape_time < max_iter then
    let abs_z := Real.sqrt (zr * zr + zi * zi)
    if abs_z > 0 then
      let log_zn := Real.log abs_z
      let nu := Real.log (log_zn / Real.log bailout) / Real.log (p : ℤ)
      (escape_time : ℝ) + 1 - nu
    else (escape_time : ℝ)
  else (max_iter : ℝ)

/-- The Mandelbrot iteration loop of `compute_pixel` (mandelbrot_cy.pyx
lines 181-190): the bailout test is applied to the current `z` at the top
of each iteration, before the update; `break` records the current index
and leaves `z` unchanged.  Returns `some k` when the test fired at loop
index `k` (relative to the starting index), together with the final
`(zr, zi)`.  The power parameter `p` is not used by this loop: the update
is hard-coded to `z² + c`. -/
def pixelLoop (c_real c_imag bailout2 : ℚ) : ℚ → ℚ → ℕ → Option ℕ × ℚ × ℚ
  | zr, zi, 0 => (none, zr, zi)
  | zr, zi, fuel + 1 =>
    if zr * zr + zi * zi > bailout2 then (some 0, zr, zi)
    else
      let r := pixelLoop c_real c_imag bailout2
        (zr * zr - zi * zi + c_real) (2 * zr * zi + c_imag) fuel
      (r.1.map (· + 1), r.2)

/-- The escape-time part of `compute_pixel` (mandelbrot_cy.pyx lines
167-190): `escape_time` starts at `max_iter` and is overwritten by the
break index when the loop bails out. -/
def computePixelEscape (c_real c_imag : ℚ) (max_iter : ℤ) (bailout : ℚ) :
    ℤ × ℚ × ℚ :=
  let r := pixelLoop c_real c_imag (bailout * bailout) 0 0 max_iter.toNat
  (match r.1 with
   | some k => (k : ℤ)
   | none => max_iter, r.2)

/-- Embedding of `compute_pixel` (mandelbrot_cy.pyx lines 154-215),
returning the escape time, the smoothed potential `u` and the RGB triple
(instead of writing through pointers). -/
noncomputable def compute_pixel (c_real c_imag : ℚ) (max_iter : ℤ) (bailout : ℚ)
    (p : ℤ) (palette_choice : ℤ) : ℤ × ℝ × (ℤ × ℤ × ℤ) :=
  let e := computePixelEscape c_real c_imag max_iter bailout
  let u := pixelSmoothing (e.2.1 : ℝ) (e.2.2 : ℝ) e.1 max_iter (bailout : ℝ) p
  let I := simple_index_cy u (max_iter : ℝ)
  let rgb :=
    if palette_choice = 0 then simple_palette_cy I
    else if palette_choice = 1 then hot_palette_cy I
    else if palette_choice = 2 then cool_palette_cy I
    else simple_palette_cy I
  (e.1, u, rgb)

/-- Embedding of `mandelbrot_set_cython_optimized` (mandelbrot_cy.pyx
lines 219-267): allocate (`np.empty` raises for a negative dimension,
modelled by `none`), precompute `dx`, `dy`, then fill every pixel via
`compute_pixel`.  No input validation is performed. -/
noncomputable def mandelbrot_set_cython_optimized (xmin xmax ymin ymax : ℚ)
    (width height max_iter palette_choice : ℤ) (bailout : ℚ) (p : ℤ) :
    Option (List (List (ℤ × ℝ × (ℤ × ℤ × ℤ)))) :=
  if width < 0 ∨ height < 0 then none
  else
    let dx := (xmax - xmin) / ((width : ℚ) - 1)
    let dy := (ymax - ymin) / ((height : ℚ) - 1)
    some ((List.range height.toNat).map fun i =>
      (List.range width.toNat).map fun j =>
        compute_pixel (xmin + (j : ℚ) * dx) (ymin + (i : ℚ) * dy)
          max_iter bailout p palette_choice)

/-- Pixel-to-plane mapping of `mandelbrot_set_cython` (mandelbrot_cy.pyx
lines 35-36): `lo + idx * (hi - lo) / (count - 1)`. -/
def pixelCoord (lo hi : ℚ) (count idx : ℤ) : ℚ :=
  lo + (idx : ℚ) * (hi - lo) / ((count : ℚ) - 1)

/-- Clamp to `[0, 1]`. -/
def clamp01 {α : Type} [LinearOrderedField α] (x : α) : α :=
  if x < 0 then 0 else if 1 < x then 1 else x

/-- Modelled from the spec: the pure-Python palette functions
(`fraktal/engines/palette.py`) passed to `mandelbrot_set_cython` are not
in the sources; per spec section 4.4 the simple palette returns
`round(clamp(I,0,1) * 255)` on all three channels, and the hot and cool
palettes scale the index by 2.5, clamp to `[0,1]` and linearly
interpolate channels from 0 to 255 over three equal bands (the same band
layout as `hot_palette_cy` and `cool_palette_cy`). -/
noncomputable def palette_py (palette_choice : ℤ) (I : ℝ) : ℝ × ℝ × ℝ :=
  if palette_choice = 0 then
    let v := ((round (clamp01 I * 255) : ℤ) : ℝ)
    (v, v, v)
  else if palette_choice = 1 then
    let t := clamp01 (I * (5 / 2))
    if t < 1 / 3 then (t * 3 * 255, 0, 0)
    else if t < 2 / 3 then (255, (t - 1 / 3) * 3 * 255, 0)
    else (255, 255, (t - 2 / 3) * 3 * 255)
  else
    let t := clamp01 (I * (5 / 2))
    if t < 1 / 3 then (0, t * 3 * 255, 255)
    else if t < 2 / 3 then (0, 255, (1 - (t - 1 / 3) * 3) * 255)
    else ((t - 2 / 3) * 3 * 255, 255, 0)

/-- One pixel of `mandelbrot_set_cython` (mandelbrot_cy.pyx lines 13-53)
instantiated with the smooth iteration-count coloring, the simple index
and a palette selected by `palette_choice`.  The generator maps the pixel
to a complex point, calls `truncated_orbit_cython`, applies the coloring,
the index and the palette, and stores `int(channel) & 0xFF`.
Modelled from the spec: the Python coloring model
(`fraktal/models/iteration_count.py`) is not in the sources; per spec
section 4.3 the smooth coloring maps the final recorded complex value
`z_N` and the escape time through the logarithmic formula, returning
exactly `max_iter` when `escape_time == max_iter` — the same mathematics
as `smooth_iteration_count_cy` — and the final recorded value is the last
entry the orbit engine wrote. -/
noncomputable def mandelbrot_set_cython_pixel (xmin xmax ymin ymax : ℚ)
    (width height max_iter palette_choice : ℤ) (bailout : ℚ) (p : ℤ)
    (i j : ℤ) : Option (ℤ × ℝ × (ℤ × ℤ × ℤ)) :=
  let c_real := pixelCoord xmin xmax width j
  let c_imag := pixelCoord ymin ymax height i
  match truncated_orbit_cython ⟨0, 0⟩ ⟨c_real, c_imag⟩ max_iter bailout p with
  | none => none
  | some r =>
    let zN := r.written.getLastD ⟨0, 0⟩
    let u := smooth_iteration_count_cy (zN.re : ℝ) (zN.im : ℝ) r.escape_time
      max_iter (bailout : ℝ) p
    let I := simple_index_cy u (max_iter : ℝ)
    let rgb := palette_py palette_choice I
    some (r.escape_time, u,
      (truncTZ rgb.1 % 256, truncTZ rgb.2.1 % 256, truncTZ rgb.2.2 % 256))

/-- Bounds in the complex plane, as returned by the tile mapper. -/
structure TileBounds where
  xmin : ℚ
  xmax : ℚ
  ymin : ℚ
  ymax : ℚ
deriving DecidableEq, Repr

/-- Embedding of `tile_to_complex_bounds`
(docs/cython-integration-guide.md lines 1366-1382): zoom 0 covers
real ∈ [-2, 1] and imag ∈ [-1.5, 1.5]; each zoom level halves a tile,
with the tile y axis inverted. -/
def tile_to_complex_bounds (x y : ℤ) (z : ℕ) : TileBounds :=
  let n : ℚ := 2 ^ z
  let real_range : ℚ := 3
  let imag_range : ℚ := 3
  ⟨-2 + ((x : ℚ) / n) * real_range,
   -2 + (((x : ℚ) + 1) / n) * real_range,
   3 / 2 - (((y : ℚ) + 1) / n) * imag_range,
   3 / 2 - ((y : ℚ) / n) * imag_range⟩

/-- The simple palette as the spec phrases it:
`r = g = b = round(clamp(I,0,1) * 255)`. -/
def specSimplePalette (I : ℚ) : ℤ × ℤ × ℤ :=
  let v := round (clamp01 I * 255)
  (v, v, v)

/-- A triple of integers all lying in the byte range `0..255`. -/
def byteRange (t : ℤ × ℤ × ℤ) : Prop :=
  0 ≤ t.1 ∧ t.1 ≤ 255 ∧ 0 ≤ t.2.1 ∧ t.2.1 ≤ 255 ∧ 0 ≤ t.2.2 ∧ t.2.2 ≤ 255

instance (t : ℤ × ℤ × ℤ) : Decidable (byteRange t) := by
  unfold byteRange; infer_instance

/-- Claim C4 as stated: for every render request with `width, height ≥ 2`,
`max_iter ≥ 1`, `bailout = 2`, `p = 2` and one of the three palettes, the
pixel produced by `mandelbrot_set_cython` (instantiated with the smooth
coloring, simple index and the corresponding palette) agrees with the one
produced by `mandelbrot_set_cython_optimized` — same escape time, same
potential, same bytes. -/
def claimC4Prop : Prop :=
  ∀ (xmin xmax ymin ymax : ℚ) (width height max_iter palette_choice i j : ℤ),
    2 ≤ width → 2 ≤ height → 1 ≤ max_iter →
    (palette_choice = 0 ∨ palette_choice = 1 ∨ palette_choice = 2) →
    0 ≤ i → i < height → 0 ≤ j → j < width →
    mandelbrot_set_cython_pixel xmin xmax ymin ymax width height max_iter
        palette_choice 2 2 i j =
      some (compute_pixel (pixelCoord xmin xmax width j)
        (pixelCoord ymin ymax height i) max_iter 2 2 palette_choice)

/-- Claim C5 as stated: every malformed render request (inverted or empty
bounds, non-positive or unit dimensions, non-positive iteration budget)
is rejected before any pixel computation. -/
def claimC5Prop : Prop :=
  ∀ (xmin xmax ymin ymax : ℚ) (width height max_iter palette_choice : ℤ)
    (bailout : ℚ) (p : ℤ),
    (xmax ≤ xmin ∨ ymax ≤ ymin ∨ width ≤ 0 ∨ height ≤ 0 ∨
      width = 1 ∨ height = 1 ∨ max_iter ≤ 0) →
    mandelbrot_set_cython_optimized xmin xmax ymin ymax width height max_iter
      palette_choice bailout p = none

/-- The C conversion of a `double` to `unsigned char` is defined exactly
when the value truncated toward zero is representable in the target type
(C11 6.3.1.4); otherwise the conversion is undefined behaviour. -/
def u8CastDefined {α : Type} [LinearOrderedRing α] [FloorRing α] (x : α) : Prop :=
  0 ≤ truncTZ x ∧ truncTZ x ≤ 255

/-- The argument `simple_palette_cy` feeds to its uint8 cast
(mandelbrot_cy.pyx line 71): `color_index * 255.0`, unclamped. -/
def simpleCastArg {α : Type} [LinearOrderedField α] (color_index : α) : α :=
  color_index * 255

/-- The argument `hot_palette_cy` feeds to its uint8 cast in the branch
taken for the given index (mandelbrot_cy.pyx lines 88, 93, 98). -/
def hotCastArg {α : Type} [LinearOrderedField α] (color_index : α) : α :=
  let raw := color_index * (5 / 2)
  let intensity := if raw < 0 then 0 else if raw > 1 then 1 else raw
  if intensity < 1 / 3 then intensity * 3 * 255
  else if intensity < 2 / 3 then (intensity - 1 / 3) * 3 * 255
  else (intensity - 2 / 3) * 3 * 255

/-- The argument `cool_palette_cy` feeds to its uint8 cast in the branch
taken for the given index (mandelbrot_cy.pyx lines 115, 120, 122). -/
def coolCastArg {α : Type} [LinearOrderedField α] (color_index : α) : α :=
  let raw := color_index * (5 / 2)
  let intensity := if raw < 0 then 0 else if raw > 1 then 1 else raw
  if intensity < 1 / 3 then intensity * 3 * 255
  else if intensity < 2 / 3 then (1 - (intensity - 1 / 3) * 3) * 255
  else (intensity - 2 / 3) * 3 * 255

theorem CQ.mul_def (a b : CQ) :
    a * b = ⟨a.re * b.re - a.im * b.im, a.re * b.im + a.im * b.re⟩ := rfl

theorem CQ.add_def (a b : CQ) : a + b = ⟨a.re + b.re, a.im + b.im⟩ := rfl

theorem f_cython_two (z c : CQ) : f_cython z c 2 = z * z + c := by
  simp [f_cython]

theorem iterList_length (f : CQ → CQ) (z : CQ) (n : ℕ) :
    (iterList f z n).length = n := by
  induction n generalizing z with
  | zero => rfl
  | succ n ih => simp [iterList, ih]

theorem orbitAux_written_length (c : CQ) (b2 : ℚ) (p : ℤ) (z : CQ) (fuel : ℕ) :
    (orbitAux c b2 p z fuel).1.length =
      match (orbitAux c b2 p z fuel).2 with
      | some k => k + 1
      | none => fuel := by
  induction fuel generalizing z with
  | zero => rfl
  | succ fuel ih =>
    simp only [orbitAux]
    split
    · rfl
    · simp only [List.length_cons, ih (f_cython z c p)]
      cases h : (orbitAux c b2 p (f_cython z c p) fuel).2 <;> simp [h]

theorem orbitAux_escape_lt (c : CQ) (b2 : ℚ) (p : ℤ) (z : CQ) (fuel k : ℕ)
    (h : (orbitAux c b2 p z fuel).2 = some k) : k < fuel := by
  induction fuel generalizing z k with
  | zero => simp [orbitAux] at h
  | succ fuel ih =>
    simp only [orbitAux] at h
    split at h
    · simp at h
      omega
    · simp only [Option.map_eq_some'] at h
      obtain ⟨a, ha, rfl⟩ := h
      exact Nat.succ_lt_succ (ih (f_cython z c p) a ha)

theorem orbitAux_written_eq_iterList (c : CQ) (b2 : ℚ) (p : ℤ) (z : CQ) (fuel : ℕ) :
    (orbitAux c b2 p z fuel).1 =
      iterList (fun w => f_cython w c p) z (orbitAux c b2 p z fuel).1.length := by
  induction fuel generalizing z with
  | zero => rfl
  | succ fuel ih =>
    simp only [orbitAux]
    split
    · rfl
    · simp only [List.length_cons, iterList]
      exact congrArg (z :: ·) (ih (f_cython z c p))

theorem orbitAux_escape_absSq (c : CQ) (b2 : ℚ) (p : ℤ) (z : CQ) (fuel k : ℕ)
    (h : (orbitAux c b2 p z fuel).2 = some k) :
    b2 < (iterN (fun w => f_cython w c p) z (k + 1)).absSq := by
  induction fuel generalizing z k with
  | zero => simp [orbitAux] at h
  | succ fuel ih =>
    simp only [orbitAux] at h
    split at h
    · simp at h
      subst h
      simpa [iterN] using by assumption
    · simp only [Option.map_eq_some'] at h
      obtain ⟨a, ha, rfl⟩ := h
      simpa [iterN] using ih (f_cython z c p) a ha


/-- Claim C1 (corrected), counterexample to the claim as stated: at
`z0 = 0`, `c = 10+10i`, `max_iter = 5` the orbit engine returns the full
allocated array of length 6 together with `escape_time = 0`, so the
returned sequence length is not `escape_time + 1`. -/
theorem claim_C1_counterexample :
    truncated_orbit_cython ⟨0, 0⟩ ⟨10, 10⟩ 5 2 2 = some ⟨6, [⟨0, 0⟩], 0⟩ ∧
    (6 : ℕ) ≠ 0 + 1 := by
  constructor
  · norm_num [truncated_orbit_cython, orbitAux, f_cython, CQ.absSq, CQ.mul_def,
      CQ.add_def, show ((6 : ℤ)).toNat = 6 from rfl]
  · decide

/-- Unfolding lemma for `truncated_orbit_cython` in the non-raising case. -/
theorem truncated_orbit_eq (z c : CQ) (max_iterations : ℤ) (bailout : ℚ) (p : ℤ)
    (h : ¬ max_iterations + 1 < 0) :
    truncated_orbit_cython z c max_iterations bailout p =
      some ⟨(max_iterations + 1).toNat,
        (orbitAux c (bailout * bailout) p z (max_iterations + 1).toNat).1,
        match (orbitAux c (bailout * bailout) p z (max_iterations + 1).toNat).2 with
        | some k => (k : ℤ)
        | none => max_iterations⟩ := by
  unfold truncated_orbit_cython
  rw [if_neg h]

/-- Claim C1 (amended): for `max_iter ≥ 0` the call succeeds, the
returned numpy array always has length `max_iter + 1` (the loop never
truncates it), the prefix actually written has length
`escape_time + 1`, and `0 ≤ escape_time ≤ max_iter`. -/
theorem claim_C1_amended (z c : CQ) (max_iterations : ℤ) (bailout : ℚ) (p : ℤ)
    (h : 0 ≤ max_iterations) :
    ∃ r : OrbitResult,
      truncated_orbit_cython z c max_iterations bailout p = some r ∧
      (r.allocLen : ℤ) = max_iterations + 1 ∧
      (r.written.length : ℤ) = r.escape_time + 1 ∧
      0 ≤ r.escape_time ∧ r.escape_time ≤ max_iterations := by
  have hfuelz : (((max_iterations + 1).toNat : ℕ) : ℤ) = max_iterations + 1 :=
    Int.toNat_of_nonneg (by omega)
  rw [truncated_orbit_eq z c max_iterations bailout p (by omega)]
  cases hesc : (orbitAux c (bailout * bailout) p z (max_iterations + 1).toNat).2 with
  | none =>
    refine ⟨_, rfl, hfuelz, ?_, ?_, ?_⟩ <;>
      simp [orbitAux_written_length, hesc] <;> omega
  | some k =>
    have hk := orbitAux_escape_lt c (bailout * bailout) p z _ k hesc
    refine ⟨_, rfl, hfuelz, ?_, ?_, ?_⟩ <;>
      simp [orbitAux_written_length, hesc] <;> omega

/-- Claim C1 witness: the amended statement instantiated at
`z0 = 0`, `c = 10+10i`, `max_iter = 5`. -/
theorem claim_C1_witness :
    ∃ r : OrbitResult,
      truncated_orbit_cython ⟨0, 0⟩ ⟨10, 10⟩ 5 2 2 = some r ∧
      (r.allocLen : ℤ) = 5 + 1 ∧
      (r.written.length : ℤ) = r.escape_time + 1 ∧
      0 ≤ r.escape_time ∧ r.escape_time ≤ 5 :=
  claim_C1_amended ⟨0, 0⟩ ⟨10, 10⟩ 5 2 2 (by norm_num)

/-- Claim C2 (corrected), counterexample to the claim as stated: at
`z0 = 0`, `c = 10+10i`, `max_iter = 5`, `bailout = 2` the first iterate
`10+10i` has squared magnitude `200 > 4` (it is the escape point), yet
the returned orbit records only `[0]` — the escape point is never written
into the output sequence. -/
theorem claim_C2_counterexample :
    truncated_orbit_cython ⟨0, 0⟩ ⟨10, 10⟩ 5 2 2 = some ⟨6, [⟨0, 0⟩], 0⟩ ∧
    f_cython ⟨0, 0⟩ ⟨10, 10⟩ 2 = ⟨10, 10⟩ ∧
    (2 * 2 : ℚ) < CQ.absSq ⟨10, 10⟩ ∧
    ¬ ((⟨10, 10⟩ : CQ) ∈ [(⟨0, 0⟩ : CQ)]) := by
  refine ⟨?_, ?_, ?_, ?_⟩
  · norm_num [truncated_orbit_cython, orbitAux, f_cython, CQ.absSq, CQ.mul_def,
      CQ.add_def, show ((6 : ℤ)).toNat = 6 from rfl]
  · norm_num [f_cython, CQ.mul_def, CQ.add_def]
  · norm_num [CQ.absSq]
  · norm_num

/-- Claim C2 (amended): the orbit records exactly the iterates
`z0, z1, …, z_escape_time` — every visited value up to but excluding the
escape point; when the bailout test fired at index `k` the excluded
iterate `z_{k+1}` is the one whose squared magnitude exceeds
`bailout²`. -/
theorem claim_C2_amended (z c : CQ) (max_iterations : ℤ) (bailout : ℚ) (p : ℤ)
    (h : 0 ≤ max_iterations) (r : OrbitResult)
    (hr : truncated_orbit_cython z c max_iterations bailout p = some r) :
    r.written =
      iterList (fun w => f_cython w c p) z (r.escape_time.toNat + 1) ∧
    ∀ k, (orbitAux c (bailout * bailout) p z (max_iterations + 1).toNat).2 = some k →
      bailout * bailout < (iterN (fun w => f_cython w c p) z (k + 1)).absSq := by
  rw [truncated_orbit_eq z c max_iterations bailout p (by omega)] at hr
  have hr2 := (Option.some_injective _ hr).symm
  subst hr2
  constructor
  · cases hesc : (orbitAux c (bailout * bailout) p z (max_iterations + 1).toNat).2 with
    | none =>
      have hw := orbitAux_written_eq_iterList c (bailout * bailout) p z
        (max_iterations + 1).toNat
      have hl := orbitAux_written_length c (bailout * bailout) p z
        (max_iterations + 1).toNat
      rw [hesc] at hl
      simp only [hesc]
      rw [hw, hl]
      have : ((max_iterations + 1).toNat) = max_iterations.toNat + 1 := by omega
      rw [this]
    | some k =>
      have hw := orbitAux_written_eq_iterList c (bailout * bailout) p z
        (max_iterations + 1).toNat
      have hl := orbitAux_written_length c (bailout * bailout) p z
        (max_iterations + 1).toNat
      rw [hesc] at hl
      simp only [hesc]
      rw [hw, hl]
      simp
  · intro k hk
    exact orbitAux_escape_absSq c (bailout * bailout) p z _ k hk

/-- Claim C2 witness: the amended statement at `z0 = 0`, `c = 10+10i`,
`max_iter = 5`. -/
theorem claim_C2_witness :
    [(⟨0, 0⟩ : CQ)] = iterList (fun w => f_cython w ⟨10, 10⟩ 2) ⟨0, 0⟩ ((0 : ℤ).toNat + 1) ∧
    ∀ k, (orbitAux ⟨10, 10⟩ (2 * 2) 2 ⟨0, 0⟩ ((5 : ℤ) + 1).toNat).2 = some k →
      (2 * 2 : ℚ) < (iterN (fun w => f_cython w ⟨10, 10⟩ 2) ⟨0, 0⟩ (k + 1)).absSq := by
  have h := claim_C2_amended ⟨0, 0⟩ ⟨10, 10⟩ 5 2 2 (by norm_num) ⟨6, [⟨0, 0⟩], 0⟩
    (by norm_num [truncated_orbit_cython, orbitAux, f_cython, CQ.absSq, CQ.mul_def,
      CQ.add_def, show ((6 : ℤ)).toNat = 6 from rfl])
  exact h

/-- Claim C9 (corrected), counterexample to the claim as stated: with
`max_iter = -1` the engine returns `escape_time = -1` (negative, not 0),
and with `max_iter = -2` the allocation `np.empty(-1)` raises instead of
returning an empty orbit. -/
theorem claim_C9_counterexample :
    truncated_orbit_cython ⟨0, 0⟩ ⟨1, 1⟩ (-1) 2 2 = some ⟨0, [], -1⟩ ∧
    ((-1 : ℤ) ≠ 0) ∧
    truncated_orbit_cython ⟨0, 0⟩ ⟨1, 1⟩ (-2) 2 2 = none := by
  refine ⟨?_, by decide, ?_⟩
  · norm_num [truncated_orbit_cython, orbitAux]
  · norm_num [truncated_orbit_cython]

/-- Claim C9 (amended): for negative `max_iter` the engine never returns
`escape_time = 0`: at `max_iter = -1` it returns an empty orbit with
`escape_time = -1`, and for `max_iter ≤ -2` the numpy allocation raises. -/
theorem claim_C9_amended (z c : CQ) (bailout : ℚ) (p : ℤ) (max_iterations : ℤ)
    (h : max_iterations < 0) :
    truncated_orbit_cython z c max_iterations bailout p =
      if max_iterations = -1 then some ⟨0, [], max_iterations⟩ else none := by
  by_cases h1 : max_iterations = -1
  · subst h1
    rw [truncated_orbit_eq z c (-1) bailout p (by omega)]
    norm_num [orbitAux]
  · rw [if_neg h1]
    unfold truncated_orbit_cython
    rw [if_pos (by omega)]

/-- Claim C9 witness: the amended statement at `max_iter = -1`. -/
theorem claim_C9_witness :
    truncated_orbit_cython ⟨0, 0⟩ ⟨1, 1⟩ (-1) 2 2 =
      if (-1 : ℤ) = -1 then some ⟨0, [], -1⟩ else none :=
  claim_C9_amended ⟨0, 0⟩ ⟨1, 1⟩ 2 2 (-1) (by norm_num)

/-- Claim C3 (confirmed): both smooth-coloring implementations return
exactly `max_iter` when `escape_time = max_iter` (the logarithmic formula
is not evaluated, so nothing degenerate reaches the palette stage), and
for an escaped input with `|z| > 0` they return
`escape_time + 1 - log(log|z| / log bailout) / log p`. -/
theorem claim_C3_smooth_branches (zre zim : ℝ) (escape_time max_iter : ℤ)
    (bailout : ℝ) (p : ℤ) :
    (escape_time = max_iter →
      smooth_iteration_count_cy zre zim escape_time max_iter bailout p = (max_iter : ℝ) ∧
      pixelSmoothing zre zim escape_time max_iter bailout p = (max_iter : ℝ)) ∧
    (escape_time < max_iter → 0 < Real.sqrt (zre * zre + zim * zim) →
      smooth_iteration_count_cy zre zim escape_time max_iter bailout p =
        (escape_time : ℝ) + 1 -
          Real.log (Real.log (Real.sqrt (zre * zre + zim * zim)) / Real.log bailout) /
            Real.log (p : ℝ) ∧
      pixelSmoothing zre zim escape_time max_iter bailout p =
        (escape_time : ℝ) + 1 -
          Real.log (Real.log (Real.sqrt (zre * zre + zim * zim)) / Real.log bailout) /
            Real.log (p : ℝ)) := by
  constructor
  · intro he
    subst he
    constructor
    · simp [smooth_iteration_count_cy]
    · simp [pixelSmoothing]
  · intro hlt hpos
    constructor
    · rw [smooth_iteration_count_cy, if_neg (by omega)]
      simp only
      rw [if_neg (not_le.mpr hpos)]
    · rw [pixelSmoothing, if_pos hlt]
      simp only
      rw [if_pos hpos]

/-- Claim C3 witness: the in-set branch at `escape_time = max_iter = 5`
and the escaped branch at `z = 3+4i`, `escape_time = 2`, `max_iter = 9`,
`bailout = 2`, `p = 2`. -/
theorem claim_C3_witness :
    (smooth_iteration_count_cy 0 0 5 5 2 2 = ((5 : ℤ) : ℝ) ∧
      pixelSmoothing 0 0 5 5 2 2 = ((5 : ℤ) : ℝ)) ∧
    (smooth_iteration_count_cy 3 4 2 9 2 2 =
        ((2 : ℤ) : ℝ) + 1 -
          Real.log (Real.log (Real.sqrt (3 * 3 + 4 * 4)) / Real.log 2) / Real.log ((2 : ℤ) : ℝ) ∧
      pixelSmoothing 3 4 2 9 2 2 =
        ((2 : ℤ) : ℝ) + 1 -
          Real.log (Real.log (Real.sqrt (3 * 3 + 4 * 4)) / Real.log 2) / Real.log ((2 : ℤ) : ℝ)) := by
  constructor
  · exact (claim_C3_smooth_branches 0 0 5 5 2 2).1 rfl
  · exact (claim_C3_smooth_branches 3 4 2 9 2 2).2 (by norm_num)
      (Real.sqrt_pos.mpr (by norm_num))

/-- Claim C6 (corrected), counterexample to the claim as stated: at
color index `I = 2` the spec formula `round(clamp(I,0,1)*255)` gives 255
on each channel, but `simple_palette_cy` casts `2 * 255 = 510` to
`uint8` before its saturation test, wrapping to 254. -/
theorem claim_C6_counterexample :
    simple_palette_cy (2 : ℚ) = (254, 254, 254) ∧
    specSimplePalette 2 = (255, 255, 255) := by
  constructor
  · norm_num [simple_palette_cy, castU8, truncTZ]
  · norm_num [specSimplePalette, clamp01]

/-- Claim C6 (amended): for `I ∈ [0, 1]` the simple palette returns
`r = g = b = ⌊I * 255⌋` (C-cast truncation, not rounding); outside this
range the value wraps modulo 256 because the uint8 cast happens before
the (dead) saturation test. -/
theorem claim_C6_amended (I : ℚ) (h0 : 0 ≤ I) (h1 : I ≤ 1) :
    simple_palette_cy I = (⌊I * 255⌋, ⌊I * 255⌋, ⌊I * 255⌋) := by
  have hx : (0 : ℚ) ≤ I * 255 := by positivity
  have hfl0 : 0 ≤ ⌊I * 255⌋ := Int.floor_nonneg.mpr hx
  have hfl : ⌊I * 255⌋ ≤ 255 := by
    have hle : I * 255 ≤ 255 := by nlinarith
    calc ⌊I * 255⌋ ≤ ⌊(255 : ℚ)⌋ := Int.floor_le_floor hle
    _ = 255 := by norm_num
  unfold simple_palette_cy castU8 truncTZ
  rw [if_pos hx]
  have hmod : ⌊I * 255⌋ % 256 = ⌊I * 255⌋ := Int.emod_eq_of_lt hfl0 (by omega)
  simp only [hmod]
  have hcl : ¬ (⌊I * 255⌋ > 255) := by omega
  rw [if_neg hcl]

/-- Claim C6 witness: the amended statement at `I = 1/2` (the channels
are `⌊127.5⌋ = 127`, not `round(127.5) = 128`). -/
theorem claim_C6_witness :
    simple_palette_cy ((1 : ℚ) / 2) =
      (⌊(1 : ℚ) / 2 * 255⌋, ⌊(1 : ℚ) / 2 * 255⌋, ⌊(1 : ℚ) / 2 * 255⌋) :=
  claim_C6_amended ((1 : ℚ) / 2) (by norm_num) (by norm_num)

/-- Bounds for the modelled uint8 cast. -/
theorem castU8_bounds {α : Type} [LinearOrderedRing α] [FloorRing α] (x : α) :
    0 ≤ castU8 x ∧ castU8 x ≤ 255 := by
  unfold castU8
  constructor
  · exact Int.emod_nonneg _ (by norm_num)
  · have hlt := Int.emod_lt_of_pos (truncTZ x) (show (0 : ℤ) < 256 by norm_num)
    omega

/-- A triple whose components each lie in `0..255` is in byte range. -/
theorem byteRange_mk (a b c : ℤ) (ha : 0 ≤ a ∧ a ≤ 255) (hb : 0 ≤ b ∧ b ≤ 255)
    (hc : 0 ≤ c ∧ c ≤ 255) : byteRange (a, b, c) :=
  ⟨ha.1, ha.2, hb.1, hb.2, hc.1, hc.2⟩

/-- The value truncated toward zero fits in `uint8` whenever the double
lies in `[0, 255]`, so the cast is within defined behaviour there. -/
theorem u8CastDefined_of_le (x : ℚ) (h0 : 0 ≤ x) (h1 : x ≤ 255) :
    u8CastDefined x := by
  unfold u8CastDefined truncTZ
  rw [if_pos h0]
  constructor
  · exact Int.floor_nonneg.mpr h0
  · calc ⌊x⌋ ≤ ⌊(255 : ℚ)⌋ := Int.floor_le_floor h1
    _ = 255 := by norm_num

/-- The clamp of `hot_palette_cy`/`cool_palette_cy` always lands in
`[0, 1]`. -/
theorem clamp_mem (raw : ℚ) :
    0 ≤ (if raw < 0 then (0 : ℚ) else if raw > 1 then 1 else raw) ∧
      (if raw < 0 then (0 : ℚ) else if raw > 1 then 1 else raw) ≤ 1 := by
  split_ifs with h1 h2
  · norm_num
  · norm_num
  · constructor
    · linarith [not_lt.mp h1]
    · linarith [not_lt.mp h2]

/-- The output of `simple_palette_cy` is built from the uint8 cast of
`simpleCastArg` alone. -/
theorem simple_palette_cast_link (I : ℚ) :
    simple_palette_cy I =
      (if castU8 (simpleCastArg I) > 255 then 255 else castU8 (simpleCastArg I),
       if castU8 (simpleCastArg I) > 255 then 255 else castU8 (simpleCastArg I),
       if castU8 (simpleCastArg I) > 255 then 255 else castU8 (simpleCastArg I)) := rfl

/-- In every branch, the cast `hot_palette_cy` performs is the cast of
`hotCastArg`. -/
theorem hot_palette_cast_link (I : ℚ) :
    hot_palette_cy I = (castU8 (hotCastArg I), 0, 0) ∨
    hot_palette_cy I = (255, castU8 (hotCastArg I), 0) ∨
    hot_palette_cy I = (255, 255, castU8 (hotCastArg I)) := by
  unfold hot_palette_cy hotCastArg
  dsimp only
  split_ifs <;>
    first
      | exact Or.inl rfl
      | exact Or.inr (Or.inl rfl)
      | exact Or.inr (Or.inr rfl)

/-- In every branch, the cast `cool_palette_cy` performs is the cast of
`coolCastArg`. -/
theorem cool_palette_cast_link (I : ℚ) :
    cool_palette_cy I = (0, castU8 (coolCastArg I), 255) ∨
    cool_palette_cy I = (0, 255, castU8 (coolCastArg I)) ∨
    cool_palette_cy I = (castU8 (coolCastArg I), 255, 0) := by
  unfold cool_palette_cy coolCastArg
  dsimp only
  split_ifs <;>
    first
      | exact Or.inl rfl
      | exact Or.inr (Or.inl rfl)
      | exact Or.inr (Or.inr rfl)

/-- Claim C7 (corrected), counterexample to the claim as stated: at the
non-negative index `I = 3` the simple palette feeds `765` to the
double-to-uint8 conversion, whose truncation does not fit in `uint8`, so
the conversion is outside C's defined behaviour (on x86/ARM it wraps,
producing 253). -/
theorem claim_C7_counterexample :
    (0 : ℚ) ≤ 3 ∧
    ¬ u8CastDefined (simpleCastArg (3 : ℚ)) ∧
    truncTZ (simpleCastArg (3 : ℚ)) = 765 ∧
    simple_palette_cy (3 : ℚ) = (253, 253, 253) := by
  refine ⟨by norm_num, ?_, ?_, ?_⟩
  · intro hdef
    unfold u8CastDefined simpleCastArg truncTZ at hdef
    norm_num at hdef
  · norm_num [simpleCastArg, truncTZ]
  · norm_num [simple_palette_cy, castU8, truncTZ]

/-- Claim C7 (amended): the hot and cool palettes are total on `[0, ∞)`
with every uint8 cast applied inside its defined range and all channels
in `0..255`; the simple palette's cast is inside the defined range of the
conversion exactly when `I * 255 < 256` — beyond that the C conversion is
undefined behaviour (all three stay within `0..255` under the
trunc-mod-256 model of the cast that actual targets implement). -/
theorem claim_C7_amended (I : ℚ) (h : 0 ≤ I) :
    (u8CastDefined (hotCastArg I) ∧ u8CastDefined (coolCastArg I) ∧
      byteRange (hot_palette_cy I) ∧ byteRange (cool_palette_cy I) ∧
      byteRange (simple_palette_cy I)) ∧
    (u8CastDefined (simpleCastArg I) ↔ I * 255 < 256) := by
  obtain ⟨ht0, ht1⟩ := clamp_mem (I * (5 / 2))
  refine ⟨⟨?_, ?_, ?_, ?_, ?_⟩, ?_⟩
  · unfold hotCastArg
    dsimp only
    set t := if I * (5 / 2) < 0 then (0 : ℚ) else if I * (5 / 2) > 1 then 1 else I * (5 / 2)
    by_cases h1 : t < 1 / 3
    · rw [if_pos h1]
      exact u8CastDefined_of_le _ (by nlinarith) (by nlinarith)
    · rw [if_neg h1]
      have hge1 := not_lt.mp h1
      by_cases h2 : t < 2 / 3
      · rw [if_pos h2]
        exact u8CastDefined_of_le _ (by nlinarith) (by nlinarith)
      · rw [if_neg h2]
        have hge2 := not_lt.mp h2
        exact u8CastDefined_of_le _ (by nlinarith) (by nlinarith)
  · unfold coolCastArg
    dsimp only
    set t := if I * (5 / 2) < 0 then (0 : ℚ) else if I * (5 / 2) > 1 then 1 else I * (5 / 2)
    by_cases h1 : t < 1 / 3
    · rw [if_pos h1]
      exact u8CastDefined_of_le _ (by nlinarith) (by nlinarith)
    · rw [if_neg h1]
      have hge1 := not_lt.mp h1
      by_cases h2 : t < 2 / 3
      · rw [if_pos h2]
        exact u8CastDefined_of_le _ (by nlinarith) (by nlinarith)
      · rw [if_neg h2]
        have hge2 := not_lt.mp h2
        exact u8CastDefined_of_le _ (by nlinarith) (by nlinarith)
  · unfold hot_palette_cy
    dsimp only
    set t := if I * (5 / 2) < 0 then (0 : ℚ) else if I * (5 / 2) > 1 then 1 else I * (5 / 2)
    by_cases h1 : t < 1 / 3
    · rw [if_pos h1]
      exact byteRange_mk _ _ _ (castU8_bounds _) (by norm_num) (by norm_num)
    · rw [if_neg h1]
      by_cases h2 : t < 2 / 3
      · rw [if_pos h2]
        exact byteRange_mk _ _ _ (by norm_num) (castU8_bounds _) (by norm_num)
      · rw [if_neg h2]
        exact byteRange_mk _ _ _ (by norm_num) (by norm_num) (castU8_bounds _)
  · unfold cool_palette_cy
    dsimp only
    set t := if I * (5 / 2) < 0 then (0 : ℚ) else if I * (5 / 2) > 1 then 1 else I * (5 / 2)
    by_cases h1 : t < 1 / 3
    · rw [if_pos h1]
      exact byteRange_mk _ _ _ (by norm_num) (castU8_bounds _) (by norm_num)
    · rw [if_neg h1]
      by_cases h2 : t < 2 / 3
      · rw [if_pos h2]
        exact byteRange_mk _ _ _ (by norm_num) (by norm_num) (castU8_bounds _)
      · rw [if_neg h2]
        exact byteRange_mk _ _ _ (castU8_bounds _) (by norm_num) (by norm_num)
  · have hc := @castU8_bounds ℚ _ _ (I * 255)
    unfold simple_palette_cy
    dsimp only
    by_cases h1 : castU8 (I * 255) > 255
    · rw [if_pos h1]
      exact byteRange_mk _ _ _ (by norm_num) (by norm_num) (by norm_num)
    · rw [if_neg h1]
      exact byteRange_mk _ _ _ hc hc hc
  · have hx : (0 : ℚ) ≤ I * 255 := by positivity
    unfold u8CastDefined simpleCastArg truncTZ
    rw [if_pos hx]
    constructor
    · rintro ⟨-, h2⟩
      by_contra hge
      push_neg at hge
      have : (256 : ℤ) ≤ ⌊I * 255⌋ := Int.le_floor.mpr (by push_cast; linarith)
      omega
    · intro hlt
      refine ⟨Int.floor_nonneg.mpr hx, ?_⟩
      have : ⌊I * 255⌋ < 256 := Int.floor_lt.mpr (by push_cast; linarith)
      omega

/-- Claim C7 witness: the amended statement at the very large index
`I = 1000000` (hot and cool casts defined and all channels in `0..255`;
the simple palette's cast falls outside the defined range there). -/
theorem claim_C7_witness :
    ((u8CastDefined (hotCastArg (1000000 : ℚ)) ∧
        u8CastDefined (coolCastArg (1000000 : ℚ)) ∧
        byteRange (hot_palette_cy (1000000 : ℚ)) ∧
        byteRange (cool_palette_cy (1000000 : ℚ)) ∧
        byteRange (simple_palette_cy (1000000 : ℚ))) ∧
      (u8CastDefined (simpleCastArg (1000000 : ℚ)) ↔ (1000000 : ℚ) * 255 < 256)) :=
  claim_C7_amended 1000000 (by norm_num)

/-- Claim C8 (confirmed): the zoom-0 tile `(0,0)` covers exactly
real ∈ [-2, 1], imag ∈ [-1.5, 1.5], and for every zoom `z` and tile
`(x, y)` the four children `(2x, 2y)`, `(2x+1, 2y)`, `(2x, 2y+1)`,
`(2x+1, 2y+1)` at zoom `z+1` exactly partition the parent bounds: shared
edges coincide, outer edges equal the parent edges, and every tile is a
nondegenerate rectangle (so the children neither overlap nor leave
gaps). -/
theorem claim_C8_tile_partition :
    tile_to_complex_bounds 0 0 0 = ⟨-2, 1, -(3 / 2), 3 / 2⟩ ∧
    ∀ (x y : ℤ) (z : ℕ),
      (tile_to_complex_bounds (2 * x) (2 * y) (z + 1)).xmin =
        (tile_to_complex_bounds x y z).xmin ∧
      (tile_to_complex_bounds (2 * x) (2 * y) (z + 1)).xmax =
        (tile_to_complex_bounds (2 * x + 1) (2 * y) (z + 1)).xmin ∧
      (tile_to_complex_bounds (2 * x + 1) (2 * y) (z + 1)).xmax =
        (tile_to_complex_bounds x y z).xmax ∧
      (tile_to_complex_bounds (2 * x) (2 * y + 1) (z + 1)).xmin =
        (tile_to_complex_bounds x y z).xmin ∧
      (tile_to_complex_bounds (2 * x) (2 * y + 1) (z + 1)).xmax =
        (tile_to_complex_bounds (2 * x + 1) (2 * y + 1) (z + 1)).xmin ∧
      (tile_to_complex_bounds (2 * x + 1) (2 * y + 1) (z + 1)).xmax =
        (tile_to_complex_bounds x y z).xmax ∧
      (tile_to_complex_bounds (2 * x) (2 * y) (z + 1)).ymax =
        (tile_to_complex_bounds x y z).ymax ∧
      (tile_to_complex_bounds (2 * x) (2 * y) (z + 1)).ymin =
        (tile_to_complex_bounds (2 * x) (2 * y + 1) (z + 1)).ymax ∧
      (tile_to_complex_bounds (2 * x) (2 * y + 1) (z + 1)).ymin =
        (tile_to_complex_bounds x y z).ymin ∧
      (tile_to_complex_bounds (2 * x + 1) (2 * y) (z + 1)).ymax =
        (tile_to_complex_bounds x y z).ymax ∧
      (tile_to_complex_bounds (2 * x + 1) (2 * y) (z + 1)).ymin =
        (tile_to_complex_bounds (2 * x + 1) (2 * y + 1) (z + 1)).ymax ∧
      (tile_to_complex_bounds (2 * x + 1) (2 * y + 1) (z + 1)).ymin =
        (tile_to_complex_bounds x y z).ymin ∧
      (tile_to_complex_bounds x y z).xmin < (tile_to_complex_bounds x y z).xmax ∧
      (tile_to_complex_bounds x y z).ymin < (tile_to_complex_bounds x y z).ymax ∧
      (tile_to_complex_bounds (2 * x) (2 * y) (z + 1)).xmin <
        (tile_to_complex_bounds (2 * x) (2 * y) (z + 1)).xmax ∧
      (tile_to_complex_bounds (2 * x) (2 * y) (z + 1)).ymin <
        (tile_to_complex_bounds (2 * x) (2 * y) (z + 1)).ymax := by
  constructor
  · norm_num [tile_to_complex_bounds]
  · intro x y z
    have hn : (0 : ℚ) < 2 ^ z := by positivity
    have hn1 : (0 : ℚ) < 2 ^ (z + 1) := by positivity
    have hq : ∀ a b : ℚ, a < b → a / 2 ^ z * 3 < b / 2 ^ z * 3 := by
      intro a b hab
      have := (div_lt_div_iff_of_pos_right hn).mpr hab
      linarith
    have hq1 : ∀ a b : ℚ, a < b → a / 2 ^ (z + 1) * 3 < b / 2 ^ (z + 1) * 3 := by
      intro a b hab
      have := (div_lt_div_iff_of_pos_right hn1).mpr hab
      linarith
    simp only [tile_to_complex_bounds]
    refine ⟨?_, ?_, ?_, ?_, ?_, ?_, ?_, ?_, ?_, ?_, ?_, ?_, ?_, ?_, ?_, ?_⟩
    · push_cast
      field_simp
      try ring
    · push_cast
      field_simp
      try ring
    · push_cast
      field_simp
      try ring
    · push_cast
      field_simp
      try ring
    · push_cast
      field_simp
      try ring
    · push_cast
      field_simp
      try ring
    · push_cast
      field_simp
      try ring
    · push_cast
      field_simp
      try ring
    · push_cast
      field_simp
      try ring
    · push_cast
      field_simp
      try ring
    · push_cast
      field_simp
      try ring
    · push_cast
      field_simp
      try ring
    · have := hq (x : ℚ) ((x : ℚ) + 1) (by linarith)
      push_cast
      linarith
    · have := hq (y : ℚ) ((y : ℚ) + 1) (by linarith)
      push_cast
      linarith
    · have := hq1 ((2 * x : ℤ) : ℚ) (((2 * x : ℤ) : ℚ) + 1) (by linarith)
      push_cast
      push_cast at this
      linarith
    · have := hq1 ((2 * y : ℤ) : ℚ) (((2 * y : ℤ) : ℚ) + 1) (by linarith)
      push_cast
      push_cast at this
      linarith

/-- Claim C10 (confirmed): with `max_iter ≥ 1` and `bailout > 0` the
inline iteration of `compute_pixel` never reports escape index 0: the
test is applied to `z` before each update starting from `z₀ = 0`, whose
squared magnitude 0 never exceeds `bailout²`. -/
theorem claim_C10_escape_positive (c_real c_imag : ℚ) (max_iter : ℤ)
    (bailout : ℚ) (p palette_choice : ℤ)
    (hm : 1 ≤ max_iter) (hb : 0 < bailout) :
    1 ≤ (compute_pixel c_real c_imag max_iter bailout p palette_choice).1 := by
  have h1 : (compute_pixel c_real c_imag max_iter bailout p palette_choice).1 =
      (computePixelEscape c_real c_imag max_iter bailout).1 := rfl
  rw [h1]
  obtain ⟨n, hn⟩ : ∃ n, max_iter.toNat = n + 1 :=
    ⟨max_iter.toNat - 1, by omega⟩
  unfold computePixelEscape
  rw [hn]
  simp only [pixelLoop]
  rw [if_neg (by nlinarith [mul_self_nonneg bailout])]
  cases hres : (pixelLoop c_real c_imag (bailout * bailout)
      (0 * 0 - 0 * 0 + c_real) (2 * 0 * 0 + c_imag) n).1 with
  | none =>
    simp [hres]
    omega
  | some k =>
    simp [hres]
    try omega

/-- Claim C10 witness: the theorem at `c = 0`, `max_iter = 1`,
`bailout = 2`. -/
theorem claim_C10_witness : 1 ≤ (compute_pixel 0 0 1 2 2 0).1 :=
  claim_C10_escape_positive 0 0 1 2 2 0 (by norm_num) (by norm_num)

/-- Cross-implementation lemma: after one seed step, the inline pixel
loop of `compute_pixel` (which tests before stepping) visits exactly the
states whose bailout tests the orbit engine (which tests after stepping)
performs, so their escape searches coincide. -/
theorem pixelLoop_eq_orbitAux (c : CQ) (b2 : ℚ) :
    ∀ (fuel : ℕ) (z : CQ),
      (pixelLoop c.re c.im b2 (f_cython z c 2).re (f_cython z c 2).im fuel).1 =
        (orbitAux c b2 2 z fuel).2 := by
  intro fuel
  induction fuel with
  | zero => intro z; rfl
  | succ fuel ih =>
    intro z
    simp only [pixelLoop, orbitAux, f_cython_two, CQ.absSq]
    by_cases hesc : b2 < (z * z + c).re * (z * z + c).re + (z * z + c).im * (z * z + c).im
    · rw [if_pos hesc, if_pos hesc]
    · rw [if_neg hesc, if_neg hesc]
      simp only
      have harg1 : (z * z + c).re * (z * z + c).re - (z * z + c).im * (z * z + c).im + c.re =
          ((z * z + c) * (z * z + c) + c).re := by
        simp [CQ.mul_def, CQ.add_def]
      have harg2 : 2 * (z * z + c).re * (z * z + c).im + c.im =
          ((z * z + c) * (z * z + c) + c).im := by
        simp [CQ.mul_def, CQ.add_def]
        ring
      rw [harg1, harg2]
      have hih := ih (z * z + c)
      rw [f_cython_two] at hih
      rw [hih]

/-- Controlled one-step unfolding of the orbit loop escape component. -/
theorem orbitAux_succ (c : CQ) (b2 : ℚ) (p : ℤ) (z : CQ) (fuel : ℕ) :
    (orbitAux c b2 p z (fuel + 1)).2 =
      if b2 < (f_cython z c p).absSq then some 0
      else ((orbitAux c b2 p (f_cython z c p) fuel).2).map (· + 1) := by
  simp only [orbitAux]
  split
  · rfl
  · rfl

/-- Escape indices are stable under extending the iteration budget. -/
theorem orbitAux_some_fuel_succ (c : CQ) (b2 : ℚ) (p : ℤ) :
    ∀ (fuel : ℕ) (z : CQ) (k : ℕ), (orbitAux c b2 p z fuel).2 = some k →
      (orbitAux c b2 p z (fuel + 1)).2 = some k := by
  intro fuel
  induction fuel with
  | zero => intro z k h; simp [orbitAux] at h
  | succ fuel ih =>
    intro z k h
    rw [orbitAux_succ] at h ⊢
    by_cases hesc : b2 < (f_cython z c p).absSq
    · rw [if_pos hesc] at h ⊢
      exact h
    · rw [if_neg hesc] at h ⊢
      rcases Option.map_eq_some'.mp h with ⟨a, ha, rfl⟩
      rw [ih _ a ha]
      rfl

/-- When a budget of `fuel` steps finds no escape, any escape found with
a larger budget lies at index at least `fuel`. -/
theorem orbitAux_none_le (c : CQ) (b2 : ℚ) (p : ℤ) :
    ∀ (fuel : ℕ) (z : CQ), (orbitAux c b2 p z fuel).2 = none →
      ∀ (g k : ℕ), (orbitAux c b2 p z (fuel + g)).2 = some k → fuel ≤ k := by
  intro fuel
  induction fuel with
  | zero =>
    intro z h g k hk
    omega
  | succ fuel ih =>
    intro z h g k hk
    rw [orbitAux_succ] at h
    have hfg : fuel + 1 + g = (fuel + g) + 1 := by omega
    rw [hfg, orbitAux_succ] at hk
    by_cases hesc : b2 < (f_cython z c p).absSq
    · rw [if_pos hesc] at h
      exact absurd h (by simp)
    · rw [if_neg hesc] at h hk
      rcases Option.map_eq_some'.mp hk with ⟨a, ha, rfl⟩
      have hnone : (orbitAux c b2 p (f_cython z c p) fuel).2 = none := by
        simpa using h
      have := ih (f_cython z c p) hnone g a ha
      omega

/-- Claim C4 (amended): the two generators do not compute the same
escape data.  At every pixel the optimized inline loop reports
`min(orbit_escape_time + 1, max_iter)`: one more than the orbit engine at
escaped pixels (the engines disagree on whether the first escaped iterate
or its predecessor is counted), agreeing only in the saturated in-set
case. -/
theorem claim_C4_amended (c_real c_imag : ℚ) (mi : ℕ) (r : OrbitResult)
    (hr : truncated_orbit_cython ⟨0, 0⟩ ⟨c_real, c_imag⟩ (mi : ℤ) 2 2 = some r) :
    (compute_pixel c_real c_imag (mi : ℤ) 2 2 0).1 =
      min (r.escape_time + 1) (mi : ℤ) := by
  rw [truncated_orbit_eq _ _ _ _ _ (by omega)] at hr
  have hrr := (Option.some_injective _ hr).symm
  subst hrr
  have hL : (compute_pixel c_real c_imag (mi : ℤ) 2 2 0).1 =
      (computePixelEscape c_real c_imag (mi : ℤ) 2).1 := rfl
  rw [hL]
  unfold computePixelEscape
  have htn : ((mi : ℤ)).toNat = mi := by omega
  rw [htn]
  cases mi with
  | zero =>
    simp only [pixelLoop]
    have hfa : (((0 : ℕ) : ℤ) + 1).toNat = 1 := by omega
    rw [hfa]
    cases hA : (orbitAux ⟨c_real, c_imag⟩ (2 * 2) 2 ⟨0, 0⟩ 1).2 with
    | none =>
      simp
    | some k =>
      have hk := orbitAux_escape_lt _ _ _ _ _ k hA
      simp only
      omega
  | succ n =>
    simp only [pixelLoop]
    rw [if_neg (by norm_num)]
    have ha1 : 0 * 0 - 0 * 0 + c_real =
        (f_cython ⟨0, 0⟩ ⟨c_real, c_imag⟩ 2).re := by
      simp [f_cython_two, CQ.mul_def, CQ.add_def]
    have ha2 : 2 * 0 * 0 + c_imag =
        (f_cython ⟨0, 0⟩ ⟨c_real, c_imag⟩ 2).im := by
      simp [f_cython_two, CQ.mul_def, CQ.add_def]
    rw [ha1, ha2, pixelLoop_eq_orbitAux ⟨c_real, c_imag⟩ (2 * 2) n ⟨0, 0⟩]
    have hfa : (((n + 1 : ℕ) : ℤ) + 1).toNat = n + 1 + 1 := by omega
    rw [hfa]
    cases hA : (orbitAux ⟨c_real, c_imag⟩ (2 * 2) 2 ⟨0, 0⟩ n).2 with
    | some k =>
      have h1 := orbitAux_some_fuel_succ _ _ _ n _ k hA
      have h2 := orbitAux_some_fuel_succ _ _ _ (n + 1) _ k h1
      have hk := orbitAux_escape_lt _ _ _ _ _ k hA
      rw [h2]
      simp only [Option.map_some']
      omega
    | none =>
      simp only [Option.map_none']
      cases hA2 : (orbitAux ⟨c_real, c_imag⟩ (2 * 2) 2 ⟨0, 0⟩ (n + 1 + 1)).2 with
      | some k =>
        have hk2 := orbitAux_escape_lt _ _ _ _ _ k hA2
        have hge := orbitAux_none_le _ _ _ n _ hA 2 k (by
          rw [show n + 2 = n + 1 + 1 from rfl]
          exact hA2)
        simp only
        omega
      | none =>
        simp only
        omega

/-- Claim C4 witness: the amended relation at `c = 10+10i`,
`max_iter = 5`: the orbit engine reports escape time 0, the optimized
loop reports `min(0 + 1, 5) = 1`. -/
theorem claim_C4_witness :
    (compute_pixel 10 10 ((5 : ℕ) : ℤ) 2 2 0).1 =
      min (OrbitResult.escape_time ⟨6, [⟨0, 0⟩], 0⟩ + 1) ((5 : ℕ) : ℤ) :=
  claim_C4_amended 10 10 5 ⟨6, [⟨0, 0⟩], 0⟩ (by
    norm_num [truncated_orbit_cython, orbitAux, f_cython, CQ.absSq, CQ.mul_def,
      CQ.add_def, show ((6 : ℤ)).toNat = 6 from rfl])

/-- Claim C4 (corrected), counterexample to the claim as stated: for the
request `xmin = 10, xmax = 11, ymin = 10, ymax = 11`, `2×2` pixels,
`max_iter = 5`, simple palette, the pixel `(0,0)` maps to `c = 10+10i`;
`mandelbrot_set_cython` (through the orbit engine) reports escape time 0
there while `mandelbrot_set_cython_optimized` reports 1, so the two
pipelines do not produce the same buffers. -/
theorem claim_C4_counterexample : ¬ claimC4Prop := by
  intro hcl
  have h0 := hcl 10 11 10 11 2 2 5 0 0 0 (by norm_num) (by norm_num) (by norm_num)
    (Or.inl rfl) (by norm_num) (by norm_num) (by norm_num) (by norm_num)
  have hc : pixelCoord 10 11 2 0 = 10 := by norm_num [pixelCoord]
  have horb : truncated_orbit_cython ⟨0, 0⟩ ⟨10, 10⟩ 5 2 2 = some ⟨6, [⟨0, 0⟩], 0⟩ := by
    norm_num [truncated_orbit_cython, orbitAux, f_cython, CQ.absSq, CQ.mul_def,
      CQ.add_def, show ((6 : ℤ)).toNat = 6 from rfl]
  simp only [mandelbrot_set_cython_pixel, hc, horb] at h0
  have h2 := Option.some.inj h0
  have h3 := congrArg Prod.fst h2
  have hB : (compute_pixel 10 10 5 2 2 0).1 = 1 := by
    have hrfl : (compute_pixel 10 10 5 2 2 0).1 = (computePixelEscape 10 10 5 2).1 := rfl
    rw [hrfl]
    norm_num [computePixelEscape, pixelLoop]
  rw [hB] at h3
  exact absurd h3 (by norm_num)

/-- Claim C5 (corrected), counterexample to the claim as stated: the
request with inverted bounds `xmin = 1 > xmax = 0` (and `2×2` pixels,
`max_iter = 1`) is not rejected — the optimized generator computes and
returns a buffer. -/
theorem claim_C5_counterexample : ¬ claimC5Prop := by
  intro hcl
  have h0 := hcl 1 0 0 1 2 2 1 0 2 2 (Or.inl (by norm_num))
  simp only [mandelbrot_set_cython_optimized] at h0
  rw [if_neg (by norm_num)] at h0
  exact Option.some_ne_none _ h0

/-- Claim C5 (amended): the generators perform no geometry validation.
Whenever the output dimensions are non-negative the optimized generator
proceeds to compute and returns a buffer — including for inverted bounds
or non-positive `max_iter`; only a negative width or height fails, and
that through the numpy allocation, not a validation step. -/
theorem claim_C5_amended (xmin xmax ymin ymax : ℚ)
    (width height max_iter palette_choice : ℤ) (bailout : ℚ) (p : ℤ) :
    (0 ≤ width → 0 ≤ height →
      (mandelbrot_set_cython_optimized xmin xmax ymin ymax width height
        max_iter palette_choice bailout p).isSome = true) ∧
    (width < 0 ∨ height < 0 →
      mandelbrot_set_cython_optimized xmin xmax ymin ymax width height
        max_iter palette_choice bailout p = none) := by
  constructor
  · intro hw hh
    simp only [mandelbrot_set_cython_optimized]
    rw [if_neg (by omega)]
    rfl
  · intro h
    simp only [mandelbrot_set_cython_optimized]
    rw [if_pos h]

/-- Claim C5 witness: the malformed request `xmin = 1 > xmax = 0` still
yields a buffer, while a negative width fails in the allocation. -/
theorem claim_C5_witness :
    (mandelbrot_set_cython_optimized 1 0 0 1 2 2 1 0 2 2).isSome = true ∧
    mandelbrot_set_cython_optimized 1 0 0 1 (-1) 2 1 0 2 2 = none :=
  ⟨(claim_C5_amended 1 0 0 1 2 2 1 0 2 2).1 (by norm_num) (by norm_num),
   (claim_C5_amended 1 0 0 1 (-1) 2 1 0 2 2).2 (Or.inl (by norm_num))⟩
